import Mathlib

/-!
System-call tracer: the trace loop of `src/tracer.cpp`

A shallow embedding of the tracing engine of `tracer.cpp`: the statistics
record and map, name resolution, the body of the main tracing loop (one
iteration = one `ptrace(PTRACE_SYSCALL)` request followed by one `waitpid`
and the classification of the stop), and the CSV dump.

Modelling conventions.

* The operating system is the environment.  Everything the kernel answers
  during one loop iteration (the results of `ptrace`, `waitpid`,
  `PTRACE_GETREGS`, `clock_gettime`) is gathered in one `Responses` record;
  a session is the list of these records, consumed one per iteration.
* `waitpid`'s status word is taken already decoded by the `WIF*`/`W*`
  macros of `<sys/wait.h>` (`WaitStatus`).
* Registers are unsigned 64-bit words (`Nat`); the casts `(long)regs.rax`
  and `(long)regs.orig_rax` are the two's-complement reinterpretation
  `to_long`.
* `long`/`long long` counters are mathematical integers: signed overflow is
  undefined in C++ and is out of reach of a session (it needs `2^63`
  completed calls or nanoseconds), so no wrap-around is modelled for them.
* `rawlog` is the list of lines written to the raw log, kept structured
  (`LogLine`) with `LogLine.render` giving the text of each line; `calls`
  is the list of process-control calls issued, in order.
* The x86-64 register pair (`orig_rax`, `rax`) is embedded; the aarch64
  build reads (`regs[8]`, `regs[0]`) into the same two variables.
-/

namespace Tracer

/-! ## Data model -/

/-- Per-call statistics, `struct SyscallStat` (tracer.cpp 20-24). -/
structure SyscallStat where
  count : Int := 0
  errors : Int := 0
  total_time_ns : Int := 0
deriving DecidableEq, Repr

/-- The fields of `struct timespec` read by the tracer. -/
structure timespec where
  tv_sec : Int
  tv_nsec : Int
deriving DecidableEq, Repr

/-- The two registers of `struct user_regs_struct` read by the tracer
(x86-64): unsigned 64-bit words. -/
structure user_regs_struct where
  orig_rax : Nat
  rax : Nat
deriving DecidableEq, Repr

/-- The cast `(long)u` of an unsigned 64-bit word: two's-complement
reinterpretation. -/
def to_long (u : Nat) : Int :=
  if u % 2 ^ 64 < 2 ^ 63 then ((u % 2 ^ 64 : Nat) : Int)
  else ((u % 2 ^ 64 : Nat) : Int) - 2 ^ 64

/-- The function `std::to_string(long)`: decimal digits, with a leading minus
sign for a negative number. -/
def to_string (n : Int) : String := toString n

/-- The table `SYSCALL_NAMES` of `syscall_names.h`
(`unordered_map<long, string>`), taken as a parameter: an association list
from call numbers to names. -/
abbrev NameTable := List (Int × String)

/-- Lookup in the name table (`count` followed by `at`). -/
def NameTable.find : NameTable → Int → Option String
  | [], _ => none
  | (k, v) :: rest, nr => if k = nr then some v else NameTable.find rest nr

/-- Name resolution, `syscall_name` (tracer.cpp 33-36). -/
def syscall_name (tbl : NameTable) (nr : Int) : String :=
  match tbl.find nr with
  | some name => name
  | none => "sys_" ++ to_string nr

/-- The map `unordered_map<long, SyscallStat> stats`, as an association
list; the order of the list is the (arbitrary) iteration order. -/
abbrev StatsMap := List (Int × SyscallStat)

/-- Lookup of a key in the statistics map. -/
def StatsMap.find : StatsMap → Int → Option SyscallStat
  | [], _ => none
  | (k', s) :: rest, k => if k' = k then some s else StatsMap.find rest k

/-- The access `SyscallStat &s = stats[k]` followed by updates through the
reference: `operator[]` inserts a value-initialised record when the key is
absent, and `f` is applied to the record in place. -/
def StatsMap.update : StatsMap → Int → (SyscallStat → SyscallStat) → StatsMap
  | [], k, f => [(k, f {})]
  | (k', s) :: rest, k, f =>
    if k' = k then (k', f s) :: rest else (k', s) :: StatsMap.update rest k f

/-- One line of the raw log. -/
inductive LogLine where
  | child_exited (status : Nat)
  | child_signaled (sig : Nat)
  | child_stopped (sig : Nat)
  | getregs_failed (err : String)
  | entry (nr : Int) (name : String)
  | exit (nr : Int) (name : String) (retval : Int) (time_ns : Int)
deriving DecidableEq, Repr

/-- The text written to `rawlog` for each line. -/
def LogLine.render : LogLine → String
  | .child_exited c => "# child exited with status " ++ toString c ++ "\n"
  | .child_signaled sig => "# child signaled with " ++ toString sig ++ "\n"
  | .child_stopped sig => "# child stopped with signal " ++ toString sig ++ "\n"
  | .getregs_failed err => "ptrace(GETREGS) failed: " ++ err ++ "\n"
  | .entry nr name => "ENTRY syscall=" ++ to_string nr ++ " name=" ++ name ++ "\n"
  | .exit nr name retval dt =>
    "EXIT syscall=" ++ to_string nr ++ " name=" ++ name
      ++ " retval=" ++ to_string retval ++ " time_ns=" ++ to_string dt ++ "\n"

/-- The process-control calls issued by the loop. `ptrace_syscall sig` is
`ptrace(PTRACE_SYSCALL, child, nullptr, sig)`, with `0` for `nullptr`. -/
inductive Action where
  | ptrace_syscall (sig : Nat)
  | waitpid
  | ptrace_getregs
  | clock_gettime
  | perror (msg : String)
deriving DecidableEq, Repr

/-- Result of a `ptrace` request: success, or `-1` with `errno` being
`ESRCH` or something else. -/
inductive PtraceResult where
  | ok
  | esrch
  | failed
deriving DecidableEq, Repr

/-- A status word of `waitpid`, decoded by `WIFEXITED`/`WEXITSTATUS`,
`WIFSIGNALED`/`WTERMSIG`, `WIFSTOPPED`/`WSTOPSIG`; `other` is a status for
which none of the three tests holds. -/
inductive WaitStatus where
  | exited (code : Nat)
  | signaled (sig : Nat)
  | stopped (sig : Nat)
  | other
deriving DecidableEq, Repr

/-- Result of `waitpid(child, &status, 0)`: `-1` with `errno == EINTR`,
`-1` with another `errno`, or a status. -/
inductive WaitResult where
  | eintr
  | failed
  | status (st : WaitStatus)
deriving DecidableEq, Repr

/-- What the operating system answers during one iteration of the loop. A
field is read only when the iteration reaches the corresponding call. -/
structure Responses where
  resume : PtraceResult := .ok
  wait : WaitResult
  inject : PtraceResult := .ok
  getregs : Except String user_regs_struct := .ok ⟨0, 0⟩
  clock : timespec := ⟨0, 0⟩

/-- The variables of `main` that the tracing loop reads and writes
(tracer.cpp 110-113), with the raw log and the calls issued so far. -/
structure Engine where
  stats : StatsMap := []
  in_syscall : Bool := false
  entry_time : timespec := ⟨0, 0⟩
  last_syscall : Int := -1
  rawlog : List LogLine := []
  calls : List Action := []
deriving DecidableEq, Repr

/-- The state before the first iteration (tracer.cpp 110-113). -/
def Engine.init : Engine := {}

/-- How an iteration leaves the loop body: `continue`/fall-through or
`break`. -/
inductive Flow where
  | next
  | done
deriving DecidableEq, Repr

/-- The constant `SIGTRAP` of `<signal.h>`. -/
def SIGTRAP : Nat := 5

/-- The test of tracer.cpp 174. -/
def is_syscall_stop (sig : Nat) : Bool :=
  sig == (SIGTRAP ||| 0x80) || sig == SIGTRAP

/-- The updates `s.count++; s.total_time_ns += delta; if (retval < 0)
s.errors++;` (tracer.cpp 221-223). -/
def record_exit (delta retval : Int) (s : SyscallStat) : SyscallStat :=
  let s := { s with count := s.count + 1 }
  let s := { s with total_time_ns := s.total_time_ns + delta }
  if retval < 0 then { s with errors := s.errors + 1 } else s

/-- The elapsed time of tracer.cpp 217-218. -/
def elapsed_ns (entry_time exit_time : timespec) : Int :=
  (exit_time.tv_sec - entry_time.tv_sec) * 1000000000
    + (exit_time.tv_nsec - entry_time.tv_nsec)

/-- One iteration of the main tracing loop (tracer.cpp 140-232). -/
def iteration (tbl : NameTable) (s : Engine) (r : Responses) : Engine × Flow :=
  let s := { s with calls := s.calls ++ [Action.ptrace_syscall 0] }
  match r.resume with
  | .esrch => (s, .done)
  | .failed => ({ s with calls := s.calls ++ [Action.perror "ptrace(SYSCALL)"] }, .done)
  | .ok =>
    let s := { s with calls := s.calls ++ [Action.waitpid] }
    match r.wait with
    | .eintr => (s, .next)
    | .failed => ({ s with calls := s.calls ++ [Action.perror "waitpid"] }, .done)
    | .status (.exited code) =>
      ({ s with rawlog := s.rawlog ++ [LogLine.child_exited code] }, .done)
    | .status (.signaled sig) =>
      ({ s with rawlog := s.rawlog ++ [LogLine.child_signaled sig] }, .done)
    | .status .other => (s, .next)
    | .status (.stopped sig) =>
      if !is_syscall_stop sig then
        let s := { s with rawlog := s.rawlog ++ [LogLine.child_stopped sig],
                          calls := s.calls ++ [Action.ptrace_syscall sig] }
        match r.inject with
        | .ok => (s, .next)
        | _ => ({ s with calls := s.calls ++ [Action.perror "ptrace(SYSCALL, deliver sig)"] },
                .done)
      else
        let s := { s with calls := s.calls ++ [Action.ptrace_getregs] }
        match r.getregs with
        | .error err => ({ s with rawlog := s.rawlog ++ [LogLine.getregs_failed err] }, .next)
        | .ok regs =>
          let sc_nr := to_long regs.orig_rax
          let retval := to_long regs.rax
          if !s.in_syscall then
            ({ s with calls := s.calls ++ [Action.clock_gettime],
                      entry_time := r.clock,
                      last_syscall := sc_nr,
                      in_syscall := true,
                      rawlog := s.rawlog ++ [LogLine.entry sc_nr (syscall_name tbl sc_nr)] },
             .next)
          else
            let delta := elapsed_ns s.entry_time r.clock
            ({ s with calls := s.calls ++ [Action.clock_gettime],
                      stats := s.stats.update s.last_syscall (record_exit delta retval),
                      rawlog := s.rawlog ++
                        [LogLine.exit s.last_syscall (syscall_name tbl s.last_syscall) retval delta],
                      in_syscall := false },
             .next)

/-- The main tracing loop run against a finite list of operating-system
answers: iterations are executed until one of them breaks out of the loop
or the answers are used up. The flag tells whether the loop was left. -/
def trace_loop (tbl : NameTable) (s : Engine) : List Responses → Engine × Flow
  | [] => (s, .next)
  | r :: rs =>
    match iteration tbl s r with
    | (s', .next) => trace_loop tbl s' rs
    | (s', .done) => (s', .done)

/-- The state reached by a session: the loop started from the initial
state. -/
def session (tbl : NameTable) (rs : List Responses) : Engine :=
  (trace_loop tbl Engine.init rs).1

/-- One row of the summary, in the column order of the CSV header. -/
structure CsvRow where
  syscall : String
  syscall_nr : Int
  count : Int
  total_time_ns : Int
  avg_time_ns : Int
  errors : Int
deriving DecidableEq, Repr

/-- The row written for one map entry (tracer.cpp 236-244); `/` on
`long long` truncates towards zero. -/
def csv_row (tbl : NameTable) (p : Int × SyscallStat) : CsvRow :=
  let nr := p.1
  let s := p.2
  let avg := if s.count > 0 then Int.tdiv s.total_time_ns s.count else 0
  { syscall := syscall_name tbl nr, syscall_nr := nr, count := s.count,
    total_time_ns := s.total_time_ns, avg_time_ns := avg, errors := s.errors }

/-- The summary dump (tracer.cpp 235-245): one row per map entry. -/
def csv_dump (tbl : NameTable) (stats : StatsMap) : List CsvRow :=
  stats.map (csv_row tbl)

/-- The text of a summary row. -/
def CsvRow.render (r : CsvRow) : String :=
  r.syscall ++ "," ++ to_string r.syscall_nr ++ "," ++ to_string r.count ++ ","
    ++ to_string r.total_time_ns ++ "," ++ to_string r.avg_time_ns ++ ","
    ++ to_string r.errors ++ "\n"

/-! ## Observations on the raw log -/

/-- Number of `ENTRY` lines for call number `k`. -/
def entries_of (k : Int) : List LogLine → Nat
  | [] => 0
  | .entry nr _ :: rest => (if nr = k then 1 else 0) + entries_of k rest
  | _ :: rest => entries_of k rest

/-- Number of `EXIT` lines for call number `k`. -/
def exits_of (k : Int) : List LogLine → Nat
  | [] => 0
  | .exit nr _ _ _ :: rest => (if nr = k then 1 else 0) + exits_of k rest
  | _ :: rest => exits_of k rest

/-- The call number of the latest `ENTRY` line, if any. -/
def last_entry (log : List LogLine) : Option Int :=
  log.reverse.findSome? fun
    | .entry nr _ => some nr
    | _ => none

/-- The pending entry according to the log: the call number of the latest
boundary line when that line is an `ENTRY`, nothing when it is an `EXIT` or
when there is no boundary line. -/
def pending_of (log : List LogLine) : Option Int :=
  (log.reverse.findSome? fun
    | .entry nr _ => some (some nr)
    | .exit _ _ _ _ => some none
    | _ => none).getD none

/-- Whether a list of calls never has two `ptrace(PTRACE_SYSCALL)` requests
without a `waitpid` in between; `armed` tells whether a request is
outstanding. -/
def run_wait_alternate (armed : Bool) : List Action → Bool
  | [] => true
  | .ptrace_syscall _ :: rest => !armed && run_wait_alternate true rest
  | .waitpid :: rest => run_wait_alternate false rest
  | _ :: rest => run_wait_alternate armed rest

/-- Whether a log line is an `ENTRY` or `EXIT` line. -/
def LogLine.is_boundary : LogLine → Bool
  | .entry _ _ => true
  | .exit _ _ _ _ => true
  | _ => false

/-- A record that has been counted at least once and has no more errors
than calls. -/
def stat_ok (st : SyscallStat) : Prop :=
  1 ≤ st.count ∧ 0 ≤ st.errors ∧ st.errors ≤ st.count

instance (st : SyscallStat) : Decidable (stat_ok st) := by
  unfold stat_ok
  infer_instance

/-! ## Concrete scenarios -/

/-- A name table with the first x86-64 call numbers. -/
def sample_names : NameTable := [(0, "read"), (1, "write"), (2, "open")]

/-- The answers of an iteration that observes a syscall-tagged stop with the
given registers and clock reading. -/
def boundary_stop (orig_rax rax : Nat) (sec nsec : Int) : Responses :=
  { wait := .status (.stopped (SIGTRAP ||| 0x80)),
    getregs := .ok ⟨orig_rax, rax⟩,
    clock := ⟨sec, nsec⟩ }

/-- A target that issues one `open` failing with `-ENOENT` (`rax = 2^64 - 2`). -/
def failing_open : List Responses :=
  [boundary_stop 2 0 1 500, boundary_stop 2 (2 ^ 64 - 2) 1 900]

/-- A target that completes one `read` and is killed by signal 9 while
blocked in a second `read`. -/
def killed_in_read : List Responses :=
  [boundary_stop 0 0 1 500, boundary_stop 0 5 1 900, boundary_stop 0 0 2 0,
   { wait := .status (.signaled 9) }]

/-- A target that completes one `write` and is still running. -/
def one_write : List Responses :=
  [boundary_stop 1 0 1 500, boundary_stop 1 5 1 900]

/-- A target stopped by the delivery of signal 10, then exiting. -/
def signal_then_exit : List Responses :=
  [{ wait := .status (.stopped 10) }, { wait := .status (.exited 0) }]

/-- An interrupted wait, then the exit of the target. -/
def eintr_then_exit : List Responses :=
  [{ wait := .eintr }, { wait := .status (.exited 0) }]

/-- One completed `write`, then the target is killed by signal 9. -/
def write_then_killed : List Responses :=
  one_write ++ [{ wait := .status (.signaled 9) }]

/-- A syscall-tagged entry stop whose call-number register holds `2^64 - 1`,
that is `-1` as a `long`. -/
def entry_of_minus_one : List Responses :=
  [boundary_stop (2 ^ 64 - 1) 0 1 500]

/-- The answers of an iteration that observes a stop with plain `SIGTRAP`
(a signal-delivery stop, not tagged with `0x80`), the call-number register
holding 59. -/
def plain_trap_stop : Responses :=
  { wait := .status (.stopped SIGTRAP), getregs := .ok ⟨59, 0⟩, clock := ⟨1, 0⟩ }

/-- A plain `SIGTRAP` stop followed by the entry stop and the exit stop of
one `write`. -/
def trap_then_write : List Responses :=
  [plain_trap_stop, boundary_stop 1 0 1 500, boundary_stop 1 5 1 900]

/-- The engine between the entry and the exit stop of an `open`. -/
def pending_open : Engine :=
  { in_syscall := true, entry_time := ⟨1, 500⟩, last_syscall := 2,
    rawlog := [LogLine.entry 2 "open"] }

/-! ## The statistics map -/

theorem StatsMap.find_update_same (m : StatsMap) (k : Int) (f : SyscallStat → SyscallStat) :
    (m.update k f).find k = some (f ((m.find k).getD {})) := by
  induction m with
  | nil => simp [StatsMap.update, StatsMap.find]
  | cons p rest ih =>
    obtain ⟨k', s⟩ := p
    by_cases h : k' = k
    · simp [StatsMap.update, StatsMap.find, h]
    · simp [StatsMap.update, StatsMap.find, h, ih]

theorem StatsMap.find_update_other (m : StatsMap) (k j : Int) (f : SyscallStat → SyscallStat)
    (hj : j ≠ k) : (m.update k f).find j = m.find j := by
  induction m with
  | nil =>
    have : ¬ k = j := fun h => hj h.symm
    simp [StatsMap.update, StatsMap.find, this]
  | cons p rest ih =>
    obtain ⟨k', s⟩ := p
    by_cases h : k' = k
    · subst h
      have : ¬ k' = j := fun h => hj h.symm
      simp [StatsMap.update, StatsMap.find, this]
    · by_cases h2 : k' = j
      · subst h2
        simp [StatsMap.update, StatsMap.find, hj]
      · simp [StatsMap.update, StatsMap.find, h, h2, ih]

theorem StatsMap.forall_update (P : SyscallStat → Prop) (m : StatsMap) (k : Int)
    (f : SyscallStat → SyscallStat) (hm : ∀ p ∈ m, P p.2) (h0 : P (f {}))
    (hf : ∀ s, P s → P (f s)) : ∀ p ∈ m.update k f, P p.2 := by
  induction m with
  | nil =>
    intro p hp
    simp [StatsMap.update] at hp
    subst hp
    exact h0
  | cons q rest ih =>
    obtain ⟨k', s⟩ := q
    have hrest : ∀ p ∈ rest, P p.2 := fun p hp => hm p (List.mem_cons_of_mem _ hp)
    have hs : P s := hm (k', s) (List.mem_cons_self _ _)
    intro p hp
    by_cases h : k' = k
    · simp [StatsMap.update, h] at hp
      rcases hp with hp | hp
      · subst hp
        exact hf s hs
      · exact hrest p hp
    · simp [StatsMap.update, h] at hp
      rcases hp with hp | hp
      · subst hp
        exact hs
      · exact ih hrest p hp

theorem StatsMap.keys_update (m : StatsMap) (k : Int) (f : SyscallStat → SyscallStat) :
    ∀ j, j ∈ (m.update k f).map Prod.fst ↔ j = k ∨ j ∈ m.map Prod.fst := by
  induction m with
  | nil => intro j; simp [StatsMap.update]
  | cons q rest ih =>
    obtain ⟨k', s⟩ := q
    intro j
    by_cases h : k' = k
    · subst h
      simp [StatsMap.update]
    · simp only [StatsMap.update, h, if_false, List.map_cons, List.mem_cons, ih j]
      tauto

theorem StatsMap.nodup_update (m : StatsMap) (k : Int) (f : SyscallStat → SyscallStat)
    (hm : (m.map Prod.fst).Nodup) : ((m.update k f).map Prod.fst).Nodup := by
  induction m with
  | nil => simp [StatsMap.update]
  | cons q rest ih =>
    obtain ⟨k', s⟩ := q
    simp only [List.map_cons, List.nodup_cons] at hm
    by_cases h : k' = k
    · subst h
      simpa [StatsMap.update] using hm
    · simp only [StatsMap.update, h, if_false, List.map_cons, List.nodup_cons]
      refine ⟨?_, ih hm.2⟩
      intro hmem
      rcases (StatsMap.keys_update rest k f k').1 hmem with h1 | h1
      · exact h h1
      · exact hm.1 h1

theorem StatsMap.find_of_mem (m : StatsMap) (hm : (m.map Prod.fst).Nodup) :
    ∀ p ∈ m, m.find p.1 = some p.2 := by
  induction m with
  | nil => intro p hp; simp at hp
  | cons q rest ih =>
    obtain ⟨k', s⟩ := q
    simp only [List.map_cons, List.nodup_cons] at hm
    intro p hp
    rcases List.mem_cons.1 hp with h | h
    · subst h
      simp [StatsMap.find]
    · have hne : ¬ k' = p.1 := by
        intro he
        apply hm.1
        rw [he]
        exact List.mem_map_of_mem Prod.fst h
      simp [StatsMap.find, hne, ih hm.2 p h]

theorem StatsMap.mem_of_find (m : StatsMap) (k : Int) (s : SyscallStat)
    (h : m.find k = some s) : (k, s) ∈ m := by
  induction m with
  | nil => simp [StatsMap.find] at h
  | cons q rest ih =>
    obtain ⟨k', s'⟩ := q
    by_cases hk : k' = k
    · simp [StatsMap.find, hk] at h
      simp [hk, h]
    · simp [StatsMap.find, hk] at h
      exact List.mem_cons_of_mem _ (ih h)

/-! ## One iteration -/

/-- An iteration is of one of three kinds: it leaves the trace variables
alone and logs at most one administrative line; it is a syscall entry; or
it is a syscall exit. -/
theorem iteration_cases (tbl : NameTable) (s : Engine) (r : Responses) :
    ((iteration tbl s r).1.stats = s.stats
      ∧ (iteration tbl s r).1.in_syscall = s.in_syscall
      ∧ (iteration tbl s r).1.last_syscall = s.last_syscall
      ∧ (iteration tbl s r).1.entry_time = s.entry_time
      ∧ ((iteration tbl s r).1.rawlog = s.rawlog
          ∨ ∃ line, line.is_boundary = false
              ∧ (iteration tbl s r).1.rawlog = s.rawlog ++ [line]))
    ∨ (s.in_syscall = false
      ∧ ∃ nr, (iteration tbl s r).1.stats = s.stats
          ∧ (iteration tbl s r).1.in_syscall = true
          ∧ (iteration tbl s r).1.last_syscall = nr
          ∧ (iteration tbl s r).1.rawlog = s.rawlog ++ [LogLine.entry nr (syscall_name tbl nr)])
    ∨ (s.in_syscall = true
      ∧ ∃ delta retval,
          (iteration tbl s r).1.stats = s.stats.update s.last_syscall (record_exit delta retval)
          ∧ (iteration tbl s r).1.in_syscall = false
          ∧ (iteration tbl s r).1.last_syscall = s.last_syscall
          ∧ (iteration tbl s r).1.rawlog = s.rawlog ++
              [LogLine.exit s.last_syscall (syscall_name tbl s.last_syscall) retval delta]) := by
  unfold iteration
  rcases r.resume with _ | _ | _
  case esrch => left; simp
  case failed => left; simp
  rcases r.wait with _ | _ | st
  case eintr => left; simp
  case failed => left; simp
  rcases st with code | sig | sig | _
  case exited => left; simp [LogLine.is_boundary]
  case signaled => left; simp [LogLine.is_boundary]
  case other => left; simp
  cases hstop : is_syscall_stop sig
  · left
    rcases r.inject with _ | _ | _ <;> simp [hstop, LogLine.is_boundary]
  · rcases r.getregs with err | regs
    · left; simp [hstop, LogLine.is_boundary]
    · cases hin : s.in_syscall
      · right; left
        simp [hstop, hin]
      · right; right
        simp only [hstop, hin]
        exact ⟨trivial, elapsed_ns s.entry_time r.clock, to_long regs.rax, by simp⟩

/-! ## The loop -/

/-- A property of the engine that holds at the start and is kept by every
iteration holds wherever the loop stops. -/
theorem trace_loop_invariant (tbl : NameTable) (P : Engine → Prop)
    (hstep : ∀ s r, P s → P (iteration tbl s r).1) :
    ∀ (rs : List Responses) (s : Engine), P s → P (trace_loop tbl s rs).1 := by
  intro rs
  induction rs with
  | nil => intro s hs; simpa [trace_loop] using hs
  | cons r rs ih =>
    intro s hs
    have h1 := hstep s r hs
    rcases hit : iteration tbl s r with ⟨s', fl⟩
    rw [hit] at h1
    cases fl
    · simpa [trace_loop, hit] using ih s' h1
    · simpa [trace_loop, hit] using h1

/-- Running the loop over a concatenation: the second part is processed
only when the first part did not leave the loop. -/
theorem trace_loop_append (tbl : NameTable) :
    ∀ (a b : List Responses) (s : Engine),
      trace_loop tbl s (a ++ b) =
        match trace_loop tbl s a with
        | (s', .next) => trace_loop tbl s' b
        | (s', .done) => (s', .done) := by
  intro a
  induction a with
  | nil => intro b s; simp [trace_loop]
  | cons r rs ih =>
    intro b s
    rcases hit : iteration tbl s r with ⟨s', fl⟩
    cases fl
    · simp [trace_loop, hit, ih]
    · simp [trace_loop, hit]

/-! ## Counting log lines -/

theorem entries_of_append (k : Int) (a b : List LogLine) :
    entries_of k (a ++ b) = entries_of k a + entries_of k b := by
  induction a with
  | nil => simp [entries_of]
  | cons x rest ih =>
    cases x <;> simp [entries_of, ih, Nat.add_assoc]

theorem exits_of_append (k : Int) (a b : List LogLine) :
    exits_of k (a ++ b) = exits_of k a + exits_of k b := by
  induction a with
  | nil => simp [exits_of]
  | cons x rest ih =>
    cases x <;> simp [exits_of, ih, Nat.add_assoc]

theorem entries_of_admin (k : Int) (line : LogLine) (h : line.is_boundary = false) :
    entries_of k [line] = 0 := by
  cases line <;> simp_all [entries_of, LogLine.is_boundary]

theorem exits_of_admin (k : Int) (line : LogLine) (h : line.is_boundary = false) :
    exits_of k [line] = 0 := by
  cases line <;> simp_all [exits_of, LogLine.is_boundary]

/-! ## Invariants of a session -/

theorem record_exit_count (delta retval : Int) (st : SyscallStat) :
    (record_exit delta retval st).count = st.count + 1 := by
  unfold record_exit
  split <;> rfl

theorem record_exit_total (delta retval : Int) (st : SyscallStat) :
    (record_exit delta retval st).total_time_ns = st.total_time_ns + delta := by
  unfold record_exit
  split <;> rfl

theorem record_exit_errors (delta retval : Int) (st : SyscallStat) :
    (record_exit delta retval st).errors = st.errors + (if retval < 0 then 1 else 0) := by
  unfold record_exit
  split <;> simp

theorem record_exit_ok_default (delta retval : Int) :
    stat_ok (record_exit delta retval {}) := by
  unfold stat_ok
  rw [record_exit_count, record_exit_errors]
  split <;> simp

theorem record_exit_ok (delta retval : Int) (st : SyscallStat) (h : stat_ok st) :
    stat_ok (record_exit delta retval st) := by
  unfold stat_ok at *
  rw [record_exit_count, record_exit_errors]
  split <;> omega

/-- Every record stored during a session satisfies `stat_ok`. -/
theorem session_stats_ok (tbl : NameTable) (rs : List Responses) :
    ∀ p ∈ (session tbl rs).stats, stat_ok p.2 := by
  unfold session
  apply trace_loop_invariant tbl (fun s => ∀ p ∈ s.stats, stat_ok p.2)
  · intro s r hs
    rcases iteration_cases tbl s r with h | ⟨_, nr, h, _⟩ | ⟨_, delta, retval, h, _⟩
    · rw [h.1]; exact hs
    · rw [h]; exact hs
    · rw [h]
      exact StatsMap.forall_update stat_ok s.stats s.last_syscall _ hs
        (record_exit_ok_default delta retval) (record_exit_ok delta retval)
  · intro p hp
    simp [Engine.init] at hp

/-- The keys of the statistics map are pairwise distinct. -/
theorem session_keys_nodup (tbl : NameTable) (rs : List Responses) :
    ((session tbl rs).stats.map Prod.fst).Nodup := by
  unfold session
  apply trace_loop_invariant tbl (fun s => (s.stats.map Prod.fst).Nodup)
  · intro s r hs
    rcases iteration_cases tbl s r with h | ⟨_, nr, h, _⟩ | ⟨_, delta, retval, h, _⟩
    · rw [h.1]; exact hs
    · rw [h]; exact hs
    · rw [h]
      exact StatsMap.nodup_update s.stats s.last_syscall _ hs
  · simp [Engine.init]

/-- The count held for a call number (`0` when it has no record) is the
number of its `EXIT` lines. -/
theorem session_count_exits (tbl : NameTable) (rs : List Responses) (k : Int) :
    (((session tbl rs).stats.find k).getD {}).count = exits_of k (session tbl rs).rawlog := by
  unfold session
  apply trace_loop_invariant tbl
    (fun s => ((s.stats.find k).getD {}).count = exits_of k s.rawlog)
  · intro s r hs
    rcases iteration_cases tbl s r with
      ⟨h1, _, _, _, h5⟩ | ⟨_, nr, h1, _, _, h5⟩ | ⟨_, delta, retval, h1, _, _, h5⟩
    · rcases h5 with h5 | ⟨line, hl, h5⟩
      · rw [h1, h5]; exact hs
      · rw [h1, h5, exits_of_append, exits_of_admin k line hl]; simpa using hs
    · rw [h1, h5, exits_of_append]
      simpa [exits_of] using hs
    · rw [h1, h5, exits_of_append]
      by_cases hk : k = s.last_syscall
      · subst hk
        rw [StatsMap.find_update_same]
        simp only [Option.getD_some, record_exit_count, exits_of, if_true]
        rw [hs]
        push_cast
        ring
      · rw [StatsMap.find_update_other _ _ _ _ hk]
        have : ¬ s.last_syscall = k := fun h => hk h.symm
        simpa [exits_of, this] using hs
  · simp [Engine.init, StatsMap.find, exits_of]

/-- The `ENTRY` lines of a call number are its `EXIT` lines, plus one when
the call is pending. -/
theorem session_entries_exits (tbl : NameTable) (rs : List Responses) (k : Int) :
    entries_of k (session tbl rs).rawlog
      = exits_of k (session tbl rs).rawlog
        + (if (session tbl rs).in_syscall = true ∧ (session tbl rs).last_syscall = k
            then 1 else 0) := by
  unfold session
  apply trace_loop_invariant tbl
    (fun s => entries_of k s.rawlog
      = exits_of k s.rawlog + (if s.in_syscall = true ∧ s.last_syscall = k then 1 else 0))
  · intro s r hs
    rcases iteration_cases tbl s r with
      ⟨_, h2, h3, _, h5⟩ | ⟨hin, nr, _, h2, h3, h5⟩ | ⟨hin, delta, retval, _, h2, h3, h5⟩
    · rcases h5 with h5 | ⟨line, hl, h5⟩
      · rw [h2, h3, h5]; exact hs
      · rw [h2, h3, h5, exits_of_append, entries_of_append, exits_of_admin k line hl,
          entries_of_admin k line hl]
        simpa using hs
    · rw [h2, h3, h5, exits_of_append, entries_of_append]
      simp only [hin, false_and, if_false] at hs
      by_cases hk : nr = k
      · simp [entries_of, exits_of, hk, hs]
      · simp [entries_of, exits_of, hk, hs]
    · rw [h2, h3, h5, exits_of_append, entries_of_append]
      simp only [hin, true_and] at hs
      by_cases hk : s.last_syscall = k
      · simp [entries_of, exits_of, hk] at hs ⊢
        omega
      · simp [entries_of, exits_of, hk] at hs ⊢
        omega
  · simp [Engine.init, entries_of, exits_of]

/-- The pending entry read off the log is the one held by the engine, and
`last_syscall` is the call number of the latest `ENTRY` line. -/
theorem session_pending (tbl : NameTable) (rs : List Responses) :
    pending_of (session tbl rs).rawlog
        = (if (session tbl rs).in_syscall = true then some (session tbl rs).last_syscall
            else none)
      ∧ (session tbl rs).last_syscall = (last_entry (session tbl rs).rawlog).getD (-1) := by
  unfold session
  apply trace_loop_invariant tbl
    (fun s => pending_of s.rawlog = (if s.in_syscall = true then some s.last_syscall else none)
      ∧ s.last_syscall = (last_entry s.rawlog).getD (-1))
  · intro s r hs
    rcases iteration_cases tbl s r with
      ⟨_, h2, h3, _, h5⟩ | ⟨hin, nr, _, h2, h3, h5⟩ | ⟨hin, delta, retval, _, h2, h3, h5⟩
    · rcases h5 with h5 | ⟨line, hl, h5⟩
      · rw [h2, h3, h5]; exact hs
      · rw [h2, h3, h5]
        cases line <;>
          simp_all [pending_of, last_entry, LogLine.is_boundary, List.reverse_append]
    · rw [h2, h3, h5]
      simp [pending_of, last_entry, List.reverse_append]
    · rw [h2, h3, h5]
      refine ⟨by simp [pending_of, List.reverse_append], ?_⟩
      have := hs.2
      simpa [last_entry, List.reverse_append] using this
  · simp [Engine.init, pending_of, last_entry]

/-! ## The paths through one iteration -/

theorem iteration_exit_eq (tbl : NameTable) (s : Engine) (r : Responses) (sig : Nat)
    (regs : user_regs_struct) (hin : s.in_syscall = true) (hres : r.resume = .ok)
    (hwait : r.wait = .status (.stopped sig)) (hsig : is_syscall_stop sig = true)
    (hregs : r.getregs = .ok regs) :
    iteration tbl s r =
      ({ s with
          calls := s.calls ++ [Action.ptrace_syscall 0, Action.waitpid, Action.ptrace_getregs,
            Action.clock_gettime],
          stats := s.stats.update s.last_syscall
            (record_exit (elapsed_ns s.entry_time r.clock) (to_long regs.rax)),
          rawlog := s.rawlog ++ [LogLine.exit s.last_syscall
            (syscall_name tbl s.last_syscall) (to_long regs.rax)
            (elapsed_ns s.entry_time r.clock)],
          in_syscall := false }, Flow.next) := by
  simp [iteration, hin, hres, hwait, hsig, hregs]

theorem iteration_signal_eq (tbl : NameTable) (s : Engine) (r : Responses) (sig : Nat)
    (hres : r.resume = .ok) (hwait : r.wait = .status (.stopped sig))
    (hsig : is_syscall_stop sig = false) :
    iteration tbl s r =
      (match r.inject with
       | .ok =>
         ({ s with
            rawlog := s.rawlog ++ [LogLine.child_stopped sig],
            calls := s.calls ++ [Action.ptrace_syscall 0, Action.waitpid,
              Action.ptrace_syscall sig] }, Flow.next)
       | _ =>
         ({ s with
            rawlog := s.rawlog ++ [LogLine.child_stopped sig],
            calls := s.calls ++ [Action.ptrace_syscall 0, Action.waitpid,
              Action.ptrace_syscall sig, Action.perror "ptrace(SYSCALL, deliver sig)"] },
          Flow.done)) := by
  rcases hinj : r.inject with _ | _ | _ <;> simp [iteration, hres, hwait, hsig, hinj]

theorem iteration_getregs_failed_eq (tbl : NameTable) (s : Engine) (r : Responses) (sig : Nat)
    (err : String) (hres : r.resume = .ok) (hwait : r.wait = .status (.stopped sig))
    (hsig : is_syscall_stop sig = true) (hregs : r.getregs = .error err) :
    iteration tbl s r =
      ({ s with
          rawlog := s.rawlog ++ [LogLine.getregs_failed err],
          calls := s.calls ++ [Action.ptrace_syscall 0, Action.waitpid,
            Action.ptrace_getregs] }, Flow.next) := by
  simp [iteration, hres, hwait, hsig, hregs]

theorem is_syscall_stop_false (sig : Nat) (h1 : sig ≠ SIGTRAP ||| 0x80) (h2 : sig ≠ SIGTRAP) :
    is_syscall_stop sig = false := by
  simp [is_syscall_stop, h1, h2]

/-! ## The claims -/

/-- C1 (aggregator update). In any engine state with `in_syscall` set,
consuming a stop that the loop treats as a syscall boundary, with registers
read successfully, makes the record of the pending identity `last_syscall`
equal to the old record (the value-initialised one when absent) with
`count + 1`, `total_time_ns + delta` for
`delta = (t_exit.sec - t_entry.sec) * 1000000000 + (t_exit.nsec - t_entry.nsec)`,
and `errors + 1` exactly when the decoded return value is negative; the
records of all other identities are unchanged. The key is `last_syscall`,
whatever call number the registers hold at the exit stop. A failing `open`
on an empty map yields the single row `open,2,1,400,400,1`. -/
theorem aggregator_update (tbl : NameTable) (s : Engine) (r : Responses) (sig : Nat)
    (regs : user_regs_struct) (hin : s.in_syscall = true) (hres : r.resume = .ok)
    (hwait : r.wait = .status (.stopped sig)) (hsig : is_syscall_stop sig = true)
    (hregs : r.getregs = .ok regs) :
    (iteration tbl s r).1.stats.find s.last_syscall
        = some
          { count := ((s.stats.find s.last_syscall).getD {}).count + 1,
            errors := ((s.stats.find s.last_syscall).getD {}).errors
              + (if to_long regs.rax < 0 then 1 else 0),
            total_time_ns := ((s.stats.find s.last_syscall).getD {}).total_time_ns
              + ((r.clock.tv_sec - s.entry_time.tv_sec) * 1000000000
                  + (r.clock.tv_nsec - s.entry_time.tv_nsec)) }
      ∧ (∀ j, j ≠ s.last_syscall → (iteration tbl s r).1.stats.find j = s.stats.find j)
      ∧ csv_dump sample_names (session sample_names failing_open).stats
          = [{ syscall := "open", syscall_nr := 2, count := 1, total_time_ns := 400,
               avg_time_ns := 400, errors := 1 }] := by
  rw [iteration_exit_eq tbl s r sig regs hin hres hwait hsig hregs]
  refine ⟨?_, ?_, by decide⟩
  · simp only [StatsMap.find_update_same]
    congr 1
    generalize (s.stats.find s.last_syscall).getD {} = old
    cases old
    simp only [record_exit, elapsed_ns]
    split <;> simp
  · intro j hj
    exact StatsMap.find_update_other _ _ _ _ hj

/-- Witness of C1: the exit stop of a failing `open` (`rax = 2^64 - 2`, that
is `-2`), consumed in a state where `open` is pending. -/
theorem aggregator_update_witness :
    (iteration sample_names pending_open (boundary_stop 2 (2 ^ 64 - 2) 1 900)).1.stats.find
        pending_open.last_syscall
      = some { count := 1, errors := 1, total_time_ns := 400 } :=
  Eq.trans
    (aggregator_update sample_names pending_open (boundary_stop 2 (2 ^ 64 - 2) 1 900)
      (SIGTRAP ||| 0x80) ⟨2, 2 ^ 64 - 2⟩ rfl rfl rfl rfl rfl).1
    (by decide)

/-- C2 (errors within count). In every session, after any number `n` of
processed wait results, every record stored in the statistics map has
`0 <= errors <= count`; hence every row of the summary has
`0 <= errors <= count`. -/
theorem errors_le_count (tbl : NameTable) (rs : List Responses) :
    (∀ (n : Nat) (k : Int) (st : SyscallStat),
        (session tbl (rs.take n)).stats.find k = some st →
          0 ≤ st.errors ∧ st.errors ≤ st.count)
      ∧ (∀ row ∈ csv_dump tbl (session tbl rs).stats,
          0 ≤ row.errors ∧ row.errors ≤ row.count) := by
  constructor
  · intro n k st h
    exact (session_stats_ok tbl (rs.take n) (k, st) (StatsMap.mem_of_find _ k st h)).2
  · intro row hrow
    simp only [csv_dump, List.mem_map] at hrow
    obtain ⟨p, hp, rfl⟩ := hrow
    exact (session_stats_ok tbl rs p hp).2

/-- Witness of C2: the record and the row of the failing `open`. -/
theorem errors_le_count_witness :
    (0 ≤ (1 : Int) ∧ (1 : Int) ≤ 1)
      ∧ (0 ≤ (csv_row sample_names (2, { count := 1, errors := 1, total_time_ns := 400 })).errors
          ∧ (csv_row sample_names (2, { count := 1, errors := 1, total_time_ns := 400 })).errors
            ≤ (csv_row sample_names (2, { count := 1, errors := 1, total_time_ns := 400 })).count) :=
  ⟨(errors_le_count sample_names failing_open).1 2 2
      { count := 1, errors := 1, total_time_ns := 400 } (by decide),
   (errors_le_count sample_names failing_open).2
      (csv_row sample_names (2, { count := 1, errors := 1, total_time_ns := 400 }))
      (by decide)⟩

theorem csv_dump_numbers (tbl : NameTable) (stats : StatsMap) :
    (csv_dump tbl stats).map CsvRow.syscall_nr = stats.map Prod.fst := by
  simp [csv_dump, csv_row]

/-- C3 (count is the number of completed pairs). In every session and for
every call number `k`: `k` has no record exactly when the raw log has no
`EXIT` line for `k`; when it has a record, its count is the number of `EXIT`
lines for `k`. The summary has one row per record: every row carries the
number of `EXIT` lines of its call number as count, every `k` with at least
one `EXIT` line has a row with that count, and no two rows have the same
call number. When the target is killed by a signal, the statistics and the
summary are those gathered before: the wait result reporting the kill ends
the loop with the map unchanged, and nothing after it is processed; one
completed `write` followed by the kill gives the single row
`write,1,1,400,400,0`. -/
theorem count_eq_completed_pairs (tbl : NameTable) (rs : List Responses) (k : Int) :
    ((session tbl rs).stats.find k = none ↔ exits_of k (session tbl rs).rawlog = 0)
      ∧ (∀ st, (session tbl rs).stats.find k = some st →
          st.count = exits_of k (session tbl rs).rawlog)
      ∧ (∀ row ∈ csv_dump tbl (session tbl rs).stats,
          row.count = exits_of row.syscall_nr (session tbl rs).rawlog)
      ∧ (0 < exits_of k (session tbl rs).rawlog →
          ∃ row ∈ csv_dump tbl (session tbl rs).stats,
            row.syscall_nr = k ∧ row.syscall = syscall_name tbl k
              ∧ row.count = exits_of k (session tbl rs).rawlog)
      ∧ ((csv_dump tbl (session tbl rs).stats).map CsvRow.syscall_nr).Nodup
      ∧ (csv_dump tbl (session tbl rs).stats).length = (session tbl rs).stats.length
      ∧ (∀ (r : Responses) (sig : Nat) (rest : List Responses),
          r.resume = .ok → r.wait = .status (.signaled sig) →
            (session tbl (rs ++ r :: rest)).stats = (session tbl rs).stats
            ∧ csv_dump tbl (session tbl (rs ++ r :: rest)).stats
                = csv_dump tbl (session tbl rs).stats
            ∧ (trace_loop tbl Engine.init (rs ++ r :: rest)).2 = Flow.done)
      ∧ csv_dump sample_names (session sample_names write_then_killed).stats
          = [{ syscall := "write", syscall_nr := 1, count := 1, total_time_ns := 400,
               avg_time_ns := 400, errors := 0 }] := by
  have hcount := session_count_exits tbl rs
  have hnone : (session tbl rs).stats.find k = none
      ↔ exits_of k (session tbl rs).rawlog = 0 := by
    have hk := hcount k
    constructor
    · intro hnone
      rw [hnone] at hk
      simpa using hk.symm
    · intro hzero
      cases hfind : (session tbl rs).stats.find k with
      | none => rfl
      | some st =>
        exfalso
        have hok := session_stats_ok tbl rs (k, st) (StatsMap.mem_of_find _ k st hfind)
        rw [hfind, hzero] at hk
        simp only [Option.getD_some] at hk
        have := hok.1
        simp only [hk] at this
        omega
  have hsome : ∀ st, (session tbl rs).stats.find k = some st →
      st.count = exits_of k (session tbl rs).rawlog := by
    intro st hfind
    have hk := hcount k
    rw [hfind] at hk
    simpa using hk
  have hkill : ∀ (r : Responses) (sig : Nat) (rest : List Responses),
      r.resume = .ok → r.wait = .status (.signaled sig) →
        (session tbl (rs ++ r :: rest)).stats = (session tbl rs).stats
        ∧ (trace_loop tbl Engine.init (rs ++ r :: rest)).2 = Flow.done := by
    intro r sig rest hres hwait
    have hit : ∀ s, iteration tbl s r
        = ({ s with calls := s.calls ++ [Action.ptrace_syscall 0, Action.waitpid],
                    rawlog := s.rawlog ++ [LogLine.child_signaled sig] }, Flow.done) := by
      intro s
      simp [iteration, hres, hwait]
    unfold session
    rw [trace_loop_append]
    rcases hpre : trace_loop tbl Engine.init rs with ⟨s', fl⟩
    cases fl
    · simp [trace_loop, hit]
    · simp
  refine ⟨hnone, hsome, ?_, ?_, ?_, ?_, ?_, by decide⟩
  · intro row hrow
    simp only [csv_dump, List.mem_map] at hrow
    obtain ⟨p, hp, rfl⟩ := hrow
    have hfind := StatsMap.find_of_mem _ (session_keys_nodup tbl rs) p hp
    have hk := hcount p.1
    rw [hfind] at hk
    simpa [csv_row] using hk
  · intro hpos
    cases hfind : (session tbl rs).stats.find k with
    | none =>
      exfalso
      have := hnone.1 hfind
      omega
    | some st =>
      refine ⟨csv_row tbl (k, st), ?_, rfl, rfl, ?_⟩
      · exact List.mem_map_of_mem (csv_row tbl) (StatsMap.mem_of_find _ k st hfind)
      · exact hsome st hfind
  · rw [csv_dump_numbers]
    exact session_keys_nodup tbl rs
  · simp [csv_dump]
  · intro r sig rest hres hwait
    have h := hkill r sig rest hres hwait
    exact ⟨h.1, by rw [h.1], h.2⟩

/-- Witness of C3: one completed `write`, then the target is killed by
signal 9. -/
theorem count_eq_completed_pairs_witness :
    (({ count := 1, errors := 0, total_time_ns := 400 } : SyscallStat).count
        = exits_of 1 (session sample_names one_write).rawlog)
      ∧ ((csv_row sample_names (1, { count := 1, errors := 0, total_time_ns := 400 })).count
        = exits_of (csv_row sample_names (1, { count := 1, errors := 0, total_time_ns := 400 })).syscall_nr
            (session sample_names one_write).rawlog)
      ∧ (∃ row ∈ csv_dump sample_names (session sample_names one_write).stats,
          row.syscall_nr = 1 ∧ row.syscall = syscall_name sample_names 1
            ∧ row.count = exits_of 1 (session sample_names one_write).rawlog)
      ∧ ((session sample_names (one_write ++ { wait := .status (.signaled 9) } :: [])).stats
          = (session sample_names one_write).stats
        ∧ csv_dump sample_names
            (session sample_names (one_write ++ { wait := .status (.signaled 9) } :: [])).stats
          = csv_dump sample_names (session sample_names one_write).stats
        ∧ (trace_loop sample_names Engine.init
            (one_write ++ { wait := .status (.signaled 9) } :: [])).2 = Flow.done) :=
  ⟨(count_eq_completed_pairs sample_names one_write 1).2.1
      { count := 1, errors := 0, total_time_ns := 400 } (by decide),
   (count_eq_completed_pairs sample_names one_write 1).2.2.1
      (csv_row sample_names (1, { count := 1, errors := 0, total_time_ns := 400 })) (by decide),
   (count_eq_completed_pairs sample_names one_write 1).2.2.2.1 (by decide),
   (count_eq_completed_pairs sample_names one_write 1).2.2.2.2.2.2.1
      { wait := .status (.signaled 9) } 9 [] rfl rfl⟩

/-- C4, as stated, fails: a target that completes one `read` and is killed
by a signal while blocked in a second `read`. The loop has ended on the
signal termination, the summary has the row of call number 0 with count 1
and one `EXIT` line, yet two `ENTRY` lines were logged for it. -/
theorem entries_exceed_count_when_killed :
    (trace_loop sample_names Engine.init killed_in_read).2 = Flow.done
      ∧ (csv_dump sample_names (session sample_names killed_in_read).stats).map
          (fun row => (row.syscall_nr, row.count)) = [(0, 1)]
      ∧ exits_of 0 (session sample_names killed_in_read).rawlog = 1
      ∧ entries_of 0 (session sample_names killed_in_read).rawlog = 2 := by
  decide

/-- C4, amended. In every session and for every call number `k` with a record
in the statistics map (hence for every row of the summary), the count equals
the number of `EXIT` lines for `k`, and the number of `ENTRY` lines for `k`
is that count, plus one exactly when the session ends with `in_syscall` set
and `k` as the pending identity (the target exited or was killed inside the
call). -/
theorem count_balances_entries_exits (tbl : NameTable) (rs : List Responses) :
    (∀ (k : Int) (st : SyscallStat), (session tbl rs).stats.find k = some st →
        st.count = exits_of k (session tbl rs).rawlog
        ∧ (entries_of k (session tbl rs).rawlog : Int)
            = st.count
              + (if (session tbl rs).in_syscall = true ∧ (session tbl rs).last_syscall = k
                  then 1 else 0))
      ∧ (∀ row ∈ csv_dump tbl (session tbl rs).stats,
          row.count = exits_of row.syscall_nr (session tbl rs).rawlog
          ∧ (entries_of row.syscall_nr (session tbl rs).rawlog : Int)
              = row.count
                + (if (session tbl rs).in_syscall = true
                      ∧ (session tbl rs).last_syscall = row.syscall_nr
                    then 1 else 0)) := by
  have key : ∀ (k : Int) (st : SyscallStat), (session tbl rs).stats.find k = some st →
      st.count = exits_of k (session tbl rs).rawlog
      ∧ (entries_of k (session tbl rs).rawlog : Int)
          = st.count
            + (if (session tbl rs).in_syscall = true ∧ (session tbl rs).last_syscall = k
                then 1 else 0) := by
    intro k st hfind
    have hk := session_count_exits tbl rs k
    rw [hfind] at hk
    simp only [Option.getD_some] at hk
    refine ⟨hk, ?_⟩
    rw [hk, session_entries_exits tbl rs k]
    split <;> simp
  refine ⟨key, ?_⟩
  intro row hrow
  simp only [csv_dump, List.mem_map] at hrow
  obtain ⟨p, hp, rfl⟩ := hrow
  have hfind := StatsMap.find_of_mem _ (session_keys_nodup tbl rs) p hp
  exact key p.1 p.2 hfind

/-- Witness of C4 amended: the target killed inside its second `read`. -/
theorem count_balances_entries_exits_witness :
    ((({ count := 1, errors := 0, total_time_ns := 400 } : SyscallStat).count
        = exits_of 0 (session sample_names killed_in_read).rawlog)
      ∧ ((entries_of 0 (session sample_names killed_in_read).rawlog : Int)
        = ({ count := 1, errors := 0, total_time_ns := 400 } : SyscallStat).count
          + (if (session sample_names killed_in_read).in_syscall = true
                ∧ (session sample_names killed_in_read).last_syscall = 0
              then 1 else 0)))
      ∧ ((csv_row sample_names (0, { count := 1, errors := 0, total_time_ns := 400 })).count
          = exits_of (csv_row sample_names (0, { count := 1, errors := 0, total_time_ns := 400 })).syscall_nr
              (session sample_names killed_in_read).rawlog
        ∧ (entries_of (csv_row sample_names (0, { count := 1, errors := 0, total_time_ns := 400 })).syscall_nr
              (session sample_names killed_in_read).rawlog : Int)
          = (csv_row sample_names (0, { count := 1, errors := 0, total_time_ns := 400 })).count
            + (if (session sample_names killed_in_read).in_syscall = true
                  ∧ (session sample_names killed_in_read).last_syscall
                    = (csv_row sample_names (0, { count := 1, errors := 0, total_time_ns := 400 })).syscall_nr
                then 1 else 0)) :=
  ⟨(count_balances_entries_exits sample_names killed_in_read).1 0
      { count := 1, errors := 0, total_time_ns := 400 } (by decide),
   (count_balances_entries_exits sample_names killed_in_read).2
      (csv_row sample_names (0, { count := 1, errors := 0, total_time_ns := 400 })) (by decide)⟩

/-- C5, as stated, fails in both directions: after one completed `write`
the engine is not in a syscall, yet `last_syscall` still holds 1 and not its
initial value -1; and after an entry stop whose call-number register decodes
to -1 the engine is in a syscall while `last_syscall` is -1. -/
theorem last_syscall_kept_after_exit :
    Engine.init.last_syscall = -1
      ∧ (session sample_names one_write).in_syscall = false
      ∧ (session sample_names one_write).last_syscall = 1
      ∧ ¬ ((session sample_names one_write).last_syscall ≠ -1
            ↔ (session sample_names one_write).in_syscall = true)
      ∧ (session sample_names entry_of_minus_one).in_syscall = true
      ∧ (session sample_names entry_of_minus_one).last_syscall = -1
      ∧ ¬ ((session sample_names entry_of_minus_one).last_syscall ≠ -1
            ↔ (session sample_names entry_of_minus_one).in_syscall = true) := by
  decide

/-- C5, amended. The flag `in_syscall` alone tells whether the pending-entry
slot is occupied. Initially the flag is clear and `last_syscall` is -1; at
every point of every session (after any number `n` of processed wait
results) the flag is set exactly when the latest boundary line of the log is
an `ENTRY` not yet followed by its `EXIT`, and then `last_syscall` is the
identity of that entry; `last_syscall` always is the identity of the latest
`ENTRY` line, and -1 when there is none: consuming the exit clears the flag
and leaves `last_syscall` as it is. -/
theorem pending_entry_iff_in_syscall (tbl : NameTable) (rs : List Responses) (n : Nat) :
    Engine.init.in_syscall = false
      ∧ Engine.init.last_syscall = -1
      ∧ pending_of (session tbl (rs.take n)).rawlog
          = (if (session tbl (rs.take n)).in_syscall = true
              then some (session tbl (rs.take n)).last_syscall else none)
      ∧ ((session tbl (rs.take n)).in_syscall = true
          ↔ (pending_of (session tbl (rs.take n)).rawlog).isSome = true)
      ∧ (session tbl (rs.take n)).last_syscall
          = (last_entry (session tbl (rs.take n)).rawlog).getD (-1) := by
  have h := session_pending tbl (rs.take n)
  refine ⟨rfl, rfl, h.1, ?_, h.2⟩
  rw [h.1]
  cases (session tbl (rs.take n)).in_syscall <;> simp

/-- C6 fails on the code. A stop with plain `SIGTRAP`, which is not the
syscall tag `SIGTRAP|0x80`, is not passed through as a signal-delivery stop:
the iteration reads the registers, sets `in_syscall`, stores a pending
identity and logs an `ENTRY` line; no `# child stopped with signal` line is
written and the signal is not re-injected. In a session the following real
entry stop of `write` is then consumed as the exit of the spurious call 59,
and the real exit stop of `write` as an entry. -/
theorem plain_sigtrap_taken_as_boundary :
    SIGTRAP ≠ (SIGTRAP ||| 0x80)
      ∧ Engine.init.in_syscall = false
      ∧ (iteration sample_names Engine.init plain_trap_stop).1.in_syscall = true
      ∧ (iteration sample_names Engine.init plain_trap_stop).1.last_syscall = 59
      ∧ (iteration sample_names Engine.init plain_trap_stop).1.rawlog
          = [LogLine.entry 59 "sys_59"]
      ∧ (iteration sample_names Engine.init plain_trap_stop).1.calls
          = [Action.ptrace_syscall 0, Action.waitpid, Action.ptrace_getregs,
             Action.clock_gettime]
      ∧ (session sample_names trap_then_write).rawlog
          = [LogLine.entry 59 "sys_59", LogLine.exit 59 "sys_59" 0 500,
             LogLine.entry 1 "write"]
      ∧ (session sample_names trap_then_write).stats
          = [(59, { count := 1, errors := 0, total_time_ns := 500 })]
      ∧ (session sample_names trap_then_write).in_syscall = true := by
  decide

/-- Pass-through of the other signals. For every stop whose signal is
neither `SIGTRAP|0x80` nor plain `SIGTRAP`, in either trace-state, the
iteration logs the one line `# child stopped with signal <sig>`, issues a
resume request carrying that same signal right after the wait, and leaves
`in_syscall`, `last_syscall`, `entry_time` and the statistics map unchanged;
no `ENTRY` or `EXIT` line is added. When the request succeeds the loop goes
on; otherwise only a diagnostic follows and the loop ends. -/
theorem signal_stop_passes_through (tbl : NameTable) (s : Engine) (r : Responses) (sig : Nat)
    (hres : r.resume = .ok) (hwait : r.wait = .status (.stopped sig))
    (h1 : sig ≠ SIGTRAP ||| 0x80) (h2 : sig ≠ SIGTRAP) :
    (iteration tbl s r).1.rawlog = s.rawlog ++ [LogLine.child_stopped sig]
      ∧ LogLine.render (LogLine.child_stopped sig)
          = "# child stopped with signal " ++ toString sig ++ "\n"
      ∧ (iteration tbl s r).1.stats = s.stats
      ∧ (iteration tbl s r).1.in_syscall = s.in_syscall
      ∧ (iteration tbl s r).1.last_syscall = s.last_syscall
      ∧ (iteration tbl s r).1.entry_time = s.entry_time
      ∧ (∀ k, entries_of k (iteration tbl s r).1.rawlog = entries_of k s.rawlog
            ∧ exits_of k (iteration tbl s r).1.rawlog = exits_of k s.rawlog)
      ∧ (∃ tail, (iteration tbl s r).1.calls
            = s.calls ++ [Action.ptrace_syscall 0, Action.waitpid, Action.ptrace_syscall sig]
                ++ tail
          ∧ (∀ a ∈ tail, ∃ msg, a = Action.perror msg)
          ∧ (r.inject = .ok → tail = [] ∧ (iteration tbl s r).2 = Flow.next)
          ∧ (r.inject ≠ .ok → (iteration tbl s r).2 = Flow.done)) := by
  rw [iteration_signal_eq tbl s r sig hres hwait (is_syscall_stop_false sig h1 h2)]
  have hlog : ∀ k, entries_of k (s.rawlog ++ [LogLine.child_stopped sig]) = entries_of k s.rawlog
      ∧ exits_of k (s.rawlog ++ [LogLine.child_stopped sig]) = exits_of k s.rawlog := by
    intro k
    rw [entries_of_append, exits_of_append]
    simp [entries_of, exits_of]
  rcases r.inject with _ | _ | _
  · exact ⟨rfl, rfl, rfl, rfl, rfl, rfl, hlog, [], by simp⟩
  · exact ⟨rfl, rfl, rfl, rfl, rfl, rfl, hlog,
      [Action.perror "ptrace(SYSCALL, deliver sig)"], by simp⟩
  · exact ⟨rfl, rfl, rfl, rfl, rfl, rfl, hlog,
      [Action.perror "ptrace(SYSCALL, deliver sig)"], by simp⟩

/-- The delivery stop of signal 10 while `open` is pending is passed
through. -/
theorem signal_stop_passes_through_witness :
    (iteration sample_names pending_open { wait := .status (.stopped 10) }).1.rawlog
        = pending_open.rawlog ++ [LogLine.child_stopped 10]
      ∧ (iteration sample_names pending_open { wait := .status (.stopped 10) }).1.in_syscall
        = pending_open.in_syscall :=
  ⟨(signal_stop_passes_through sample_names pending_open { wait := .status (.stopped 10) } 10
      rfl rfl (by decide) (by decide)).1,
   (signal_stop_passes_through sample_names pending_open { wait := .status (.stopped 10) } 10
      rfl rfl (by decide) (by decide)).2.2.2.1⟩

/-- C7 (average). In every session every record stored in the statistics
map has `count >= 1`, and every row of the summary has `count >= 1` and
`avg_time_ns = total_time_ns / count` with the truncating division of
`long long`: the fallback `avg = 0` is never taken. -/
theorem avg_is_total_div_count (tbl : NameTable) (rs : List Responses) :
    (∀ (k : Int) (st : SyscallStat), (session tbl rs).stats.find k = some st → 1 ≤ st.count)
      ∧ (∀ row ∈ csv_dump tbl (session tbl rs).stats,
          1 ≤ row.count ∧ row.avg_time_ns = Int.tdiv row.total_time_ns row.count) := by
  constructor
  · intro k st h
    exact (session_stats_ok tbl rs (k, st) (StatsMap.mem_of_find _ k st h)).1
  · intro row hrow
    simp only [csv_dump, List.mem_map] at hrow
    obtain ⟨p, hp, rfl⟩ := hrow
    have h1 : 1 ≤ p.2.count := (session_stats_ok tbl rs p hp).1
    have hpos : p.2.count > 0 := by omega
    exact ⟨h1, by simp [csv_row, hpos]⟩

/-- Witness of C7: the record and the row of the failing `open`. -/
theorem avg_is_total_div_count_witness :
    (1 ≤ ({ count := 1, errors := 1, total_time_ns := 400 } : SyscallStat).count)
      ∧ (1 ≤ (csv_row sample_names (2, { count := 1, errors := 1, total_time_ns := 400 })).count
        ∧ (csv_row sample_names (2, { count := 1, errors := 1, total_time_ns := 400 })).avg_time_ns
          = Int.tdiv
              (csv_row sample_names
                (2, { count := 1, errors := 1, total_time_ns := 400 })).total_time_ns
              (csv_row sample_names (2, { count := 1, errors := 1, total_time_ns := 400 })).count) :=
  ⟨(avg_is_total_div_count sample_names failing_open).1 2
      { count := 1, errors := 1, total_time_ns := 400 } (by decide),
   (avg_is_total_div_count sample_names failing_open).2
      (csv_row sample_names (2, { count := 1, errors := 1, total_time_ns := 400 }))
      (by decide)⟩

theorem NameTable.lookup_of_entry (tbl : NameTable) (hnd : (tbl.map Prod.fst).Nodup) :
    ∀ p ∈ tbl, NameTable.find tbl p.1 = some p.2 := by
  induction tbl with
  | nil => intro p hp; simp at hp
  | cons q rest ih =>
    obtain ⟨k, v⟩ := q
    simp only [List.map_cons, List.nodup_cons] at hnd
    intro p hp
    rcases List.mem_cons.1 hp with h | h
    · subst h
      simp [NameTable.find]
    · have hne : ¬ k = p.1 := by
        intro he
        apply hnd.1
        rw [he]
        exact List.mem_map_of_mem Prod.fst h
      simp [NameTable.find, hne, ih hnd.2 p h]

theorem NameTable.lookup_of_absent (tbl : NameTable) (n : Int)
    (h : n ∉ tbl.map Prod.fst) : NameTable.find tbl n = none := by
  induction tbl with
  | nil => rfl
  | cons q rest ih =>
    obtain ⟨k, v⟩ := q
    simp only [List.map_cons, List.mem_cons, not_or] at h
    have hne : ¬ k = n := fun he => h.1 he.symm
    simp [NameTable.find, hne, ih h.2]

/-- C8 (name resolution). For every call number `n` and every name table
(keys pairwise distinct, as in a map): when the table maps `n` to `name`,
`syscall_name` returns `name`; when `n` is not a key, it returns `sys_`
followed by the decimal rendering of `n`, which is the digits of `|n|`
preceded by a minus sign when `n` is negative. The result is a function of
`n` and the table only. -/
theorem syscall_name_resolves (tbl : NameTable) (n : Int) :
    (∀ name, (tbl.map Prod.fst).Nodup → (n, name) ∈ tbl → syscall_name tbl n = name)
      ∧ (n ∉ tbl.map Prod.fst → syscall_name tbl n = "sys_" ++ to_string n)
      ∧ to_string n = (if n < 0 then "-" ++ Nat.repr n.natAbs else Nat.repr n.natAbs)
      ∧ syscall_name sample_names 999 = "sys_999"
      ∧ syscall_name sample_names (-38) = "sys_-38" := by
  refine ⟨?_, ?_, ?_, by decide, by decide⟩
  · intro name hnd hmem
    have := NameTable.lookup_of_entry tbl hnd (n, name) hmem
    simp only at this
    simp [syscall_name, this]
  · intro hn
    simp [syscall_name, NameTable.lookup_of_absent tbl n hn]
  · cases n with
    | ofNat m =>
      have : ¬ (Int.ofNat m < 0) := by simp
      simp only [this, if_false]
      rfl
    | negSucc m =>
      have : Int.negSucc m < 0 := Int.negSucc_lt_zero m
      simp only [this, if_true]
      rfl

/-- Witness of C8: `open` is found in the sample table, 999 is not. -/
theorem syscall_name_resolves_witness :
    syscall_name sample_names 2 = "open"
      ∧ syscall_name sample_names 999 = "sys_" ++ to_string 999 :=
  ⟨(syscall_name_resolves sample_names 2).1 "open" (by decide) (by decide),
   (syscall_name_resolves sample_names 999).2.1 (by decide)⟩

/-- C9 (register-read failure). In every engine state, when the stop is
treated as a syscall boundary and `PTRACE_GETREGS` fails, the iteration only
appends the failure line to the raw log (after the run request, the wait and
the register read): `in_syscall`, `last_syscall`, `entry_time` and the
statistics map are unchanged, no `ENTRY` or `EXIT` line is added, and the
loop goes on with the next iteration. -/
theorem getregs_failure_skips (tbl : NameTable) (s : Engine) (r : Responses) (sig : Nat)
    (err : String) (hres : r.resume = .ok) (hwait : r.wait = .status (.stopped sig))
    (hsig : is_syscall_stop sig = true) (hregs : r.getregs = .error err) :
    iteration tbl s r
        = ({ s with
              rawlog := s.rawlog ++ [LogLine.getregs_failed err],
              calls := s.calls ++ [Action.ptrace_syscall 0, Action.waitpid,
                Action.ptrace_getregs] }, Flow.next)
      ∧ (iteration tbl s r).1.in_syscall = s.in_syscall
      ∧ (iteration tbl s r).1.last_syscall = s.last_syscall
      ∧ (iteration tbl s r).1.entry_time = s.entry_time
      ∧ (iteration tbl s r).1.stats = s.stats
      ∧ (∀ k, entries_of k (iteration tbl s r).1.rawlog = entries_of k s.rawlog
            ∧ exits_of k (iteration tbl s r).1.rawlog = exits_of k s.rawlog)
      ∧ (∀ rs, trace_loop tbl s (r :: rs) = trace_loop tbl (iteration tbl s r).1 rs) := by
  have h := iteration_getregs_failed_eq tbl s r sig err hres hwait hsig hregs
  refine ⟨h, ?_, ?_, ?_, ?_, ?_, ?_⟩
  · rw [h]
  · rw [h]
  · rw [h]
  · rw [h]
  · intro k
    rw [h]
    simp only
    rw [entries_of_append, exits_of_append]
    simp [entries_of, exits_of]
  · intro rs
    simp [trace_loop, h]

/-- Witness of C9: a failed register read at a syscall-tagged stop while
`open` is pending. -/
theorem getregs_failure_skips_witness :
    iteration sample_names pending_open
        { wait := .status (.stopped (SIGTRAP ||| 0x80)), getregs := .error "No such process" }
      = ({ pending_open with
            rawlog := pending_open.rawlog ++ [LogLine.getregs_failed "No such process"],
            calls := pending_open.calls ++ [Action.ptrace_syscall 0, Action.waitpid,
              Action.ptrace_getregs] }, Flow.next) :=
  (getregs_failure_skips sample_names pending_open
    { wait := .status (.stopped (SIGTRAP ||| 0x80)), getregs := .error "No such process" }
    (SIGTRAP ||| 0x80) "No such process" rfl rfl (by decide) rfl).1

/-- C10 fails on the code. After the delivery stop of signal 10 the loop
issues the request carrying the signal and then, back at the loop head, a
second run request with no wait between the two; after an interrupted wait
the loop issues a new run request before it waits again. -/
theorem run_requests_not_alternating :
    (session sample_names signal_then_exit).calls
        = [Action.ptrace_syscall 0, Action.waitpid, Action.ptrace_syscall 10,
           Action.ptrace_syscall 0, Action.waitpid]
      ∧ run_wait_alternate false (session sample_names signal_then_exit).calls = false
      ∧ (session sample_names eintr_then_exit).calls
        = [Action.ptrace_syscall 0, Action.waitpid, Action.ptrace_syscall 0, Action.waitpid] := by
  decide

end Tracer
